import Mathlib

/-!
# Verification of `kml2msfs.py`

A shallow embedding of the KML → MSFS2020 `.pln` converter.  Python floats are
modelled as exact rationals (`ℚ`), Python strings as Lean `String`/`List Char`
(ASCII semantics for the character classes `\w`, `\s`, `str.isalpha`,
`str.upper`, `str.strip`), and the fallible pipeline as `Except`/`Option`.
Every definition follows the source file `src/kml2msfs.py`; the XML output
tree is modelled as a record holding exactly the text nodes the builder emits.
-/

namespace Kml2Msfs

/-- Python's `round()` on a (model) float: round half to even. -/
def pyRound (q : ℚ) : ℤ :=
  if q - (⌊q⌋ : ℚ) < 1/2 then ⌊q⌋
  else if 1/2 < q - (⌊q⌋ : ℚ) then ⌊q⌋ + 1
  else if ⌊q⌋ % 2 = 0 then ⌊q⌋ else ⌊q⌋ + 1

/-- Decimal digits of `n`, most significant first, accumulated onto `acc`. -/
def digitCharsTo (n : Nat) (acc : List Char) : List Char :=
  if n < 10 then Nat.digitChar n :: acc
  else digitCharsTo (n / 10) (Nat.digitChar (n % 10) :: acc)
termination_by n
decreasing_by simp_wf; omega

/-- Decimal digit characters of `n` — what Python's `str(n)` / `{n:d}` prints
for a nonnegative integer. -/
def natChars (n : Nat) : List Char := digitCharsTo n []

/-- Decimal value of a digit-character list (leading zeros allowed). -/
def natOfChars (cs : List Char) : Nat :=
  cs.foldl (fun a c => a * 10 + (c.toNat - 48)) 0

/-- Left-pad `cs` with `'0'` up to total width `w` (Python's `0`-fill). -/
def padZeros (w : Nat) (cs : List Char) : List Char :=
  List.replicate (w - cs.length) '0' ++ cs

/-- Python's `f"{z:06d}"`: total width 6, zero-filled; a minus sign is counted
in the width and placed before the fill. -/
def int06 (z : ℤ) : List Char :=
  if z < 0 then '-' :: padZeros 5 (natChars z.natAbs)
  else padZeros 6 (natChars z.natAbs)

/-- The conversion factor `3.28084` of the source as an exact rational. -/
def mPerFt : ℚ := 328084/100000

/-- `alt_m_to_ft_str` (source lines 28-31): `ft = int(round(alt_m * 3.28084))`
rendered as `f"+{ft:06d}.00"`. -/
def alt_m_to_ft_str (alt_m : ℚ) : List Char :=
  '+' :: (int06 (pyRound (alt_m * mPerFt)) ++ ['.', '0', '0'])

/-- Python's `f"{s:05.2f}"` for `s ≥ 0`: round to hundredths (half to even),
print with two decimal digits, zero-fill to total width 5. -/
def fmt05_2 (s : ℚ) : List Char :=
  padZeros 5 (natChars ((pyRound (s * 100)).toNat / 100) ++
    '.' :: padZeros 2 (natChars ((pyRound (s * 100)).toNat % 100)))

/-- Hemisphere letter of `dec_to_dms` (source line 20). -/
def dmsHem (value : ℚ) (is_lat : Bool) : Char :=
  if is_lat then (if 0 ≤ value then 'N' else 'S')
  else (if 0 ≤ value then 'E' else 'W')

/-- `d = int(value)` after `value = abs(value)` (source lines 21-22); `int()`
truncates toward zero, which on a nonnegative value is the floor. -/
def dmsDeg (value : ℚ) : ℤ := ⌊|value|⌋

/-- `m_full = (value - d) * 60` (source line 23). -/
def dmsMinFull (value : ℚ) : ℚ := (|value| - (dmsDeg value : ℚ)) * 60

/-- `m = int(m_full)` (source line 24). -/
def dmsMin (value : ℚ) : ℤ := ⌊dmsMinFull value⌋

/-- `s = (m_full - m) * 60` (source line 25). -/
def dmsSec (value : ℚ) : ℚ := (dmsMinFull value - (dmsMin value : ℚ)) * 60

/-- `dec_to_dms` (source lines 18-26): the character list of
`f"{hem}{d}° {m}' {s:05.2f}\""`. -/
def dec_to_dms (value : ℚ) (is_lat : Bool) : List Char :=
  dmsHem value is_lat ::
    (natChars (dmsDeg value).toNat ++ '°' :: ' ' ::
      (natChars (dmsMin value).toNat ++ '\'' :: ' ' ::
        (fmt05_2 (dmsSec value) ++ ['\"'])))

/-- The `f"{dms(lat)},{dms(lon)},{alt_str}"` triples of source lines 76, 78
and 99-101. -/
def lla (lat lon alt : ℚ) : List Char :=
  dec_to_dms lat true ++ ',' :: (dec_to_dms lon false ++ ',' :: alt_m_to_ft_str alt)

/-- Python's `str.upper()` (ASCII). -/
def pyUpper (s : String) : String := ⟨s.data.map Char.toUpper⟩

/-- ASCII whitespace, the `\s` class of the regex and the default strip set. -/
def isSpaceChar (c : Char) : Bool :=
  c = ' ' || c = '\t' || c = '\n' || c = '\r' || c = '\x0b' || c = '\x0c'

/-- The regex class `\w`: letters, digits and the underscore (ASCII). -/
def isWordChar (c : Char) : Bool := c.isAlphanum || c = '_'

/-- Python's `str.strip()` (ASCII whitespace). -/
def pyStrip (s : String) : String :=
  ⟨((s.data.dropWhile isSpaceChar).reverse.dropWhile isSpaceChar).reverse⟩

/-- Python's `os.path.basename` on a POSIX path: everything after the last
`'/'`; the extension is NOT removed. -/
def pyBasename (p : String) : String :=
  ⟨(p.data.reverse.takeWhile (fun c => c ≠ '/')).reverse⟩

/-- Python's `str.isalpha()` (ASCII): nonempty and all letters. -/
def pyIsAlpha (s : String) : Bool := !s.data.isEmpty && s.data.all Char.isAlpha

/-- The regex `(\w{4})\s+to\s+(\w{4})` with `re.I`, applied at the head of the
character list (as `re.match` anchors at the start).  `\w{4}` is a fixed
width, and `\s` never matches `t`/`T`, so greedy matching is deterministic:
take four word characters, a nonempty whitespace run, `to` in either case,
another nonempty whitespace run, and four word characters. -/
def matchWord4To (cs : List Char) : Option (List Char × List Char) :=
  match cs with
  | a :: b :: c :: d :: rest =>
    if isWordChar a && isWordChar b && isWordChar c && isWordChar d then
      if (rest.takeWhile isSpaceChar).isEmpty then none
      else
        match rest.dropWhile isSpaceChar with
        | t :: o :: r2 =>
          if (t = 't' || t = 'T') && (o = 'o' || o = 'O') then
            if (r2.takeWhile isSpaceChar).isEmpty then none
            else
              match r2.dropWhile isSpaceChar with
              | e :: f :: g :: h :: _ =>
                if isWordChar e && isWordChar f && isWordChar g && isWordChar h then
                  some ([a, b, c, d], [e, f, g, h])
                else none
              | _ => none
          else none
        | _ => none
      else none
  | _ => none

/-- `re.match(r"(\w{4})\s+to\s+(\w{4})", title, re.I)` (source line 59). -/
def matchEndpoints (title : String) : Option (String × String) :=
  (matchWord4To title.data).map (fun p => (⟨p.1⟩, ⟨p.2⟩))

/-- Whether the pattern matches starting at offset `i` (what `re.search`
would try at position `i`); `re.match` is `matchAt · 0`. -/
def matchAt (cs : List Char) (i : Nat) : Bool :=
  (matchWord4To (cs.drop i)).isSome

/-- Modelled from the claim's words, for comparison with the source's
`matchWord4To`: the same shape but with four ALPHANUMERIC characters
(no underscore) on each side of the case-insensitive `to`. -/
def specAlnumMatch (cs : List Char) : Option (List Char × List Char) :=
  match cs with
  | a :: b :: c :: d :: rest =>
    if a.isAlphanum && b.isAlphanum && c.isAlphanum && d.isAlphanum then
      if (rest.takeWhile isSpaceChar).isEmpty then none
      else
        match rest.dropWhile isSpaceChar with
        | t :: o :: r2 =>
          if (t = 't' || t = 'T') && (o = 'o' || o = 'O') then
            if (r2.takeWhile isSpaceChar).isEmpty then none
            else
              match r2.dropWhile isSpaceChar with
              | e :: f :: g :: h :: _ =>
                if e.isAlphanum && f.isAlphanum && g.isAlphanum && h.isAlphanum then
                  some ([a, b, c, d], [e, f, g, h])
                else none
              | _ => none
          else none
        | _ => none
      else none
  | _ => none

/-- A waypoint as parsed from the KML: `(name, lat, lon, alt_m)`. -/
structure Waypoint where
  name : String
  lat : ℚ
  lon : ℚ
  alt : ℚ

/-- One `<ATCWaypoint>` node of the output document. -/
structure ATCWaypoint where
  id : String
  wpType : String
  worldPosition : List Char
  icaoIdent : Option String

/-- The `<FlightPlan.FlightPlan>` subtree the builder emits (source
lines 62-108), field per text node. -/
structure FlightPlanDoc where
  title : String
  fpType : String
  routeType : String
  cruisingAlt : String
  departureID : String
  departureLLA : List Char
  destinationID : String
  destinationLLA : List Char
  descr : String
  departureName : String
  destinationName : String
  appVersionMajor : String
  appVersionBuild : String
  waypoints : List ATCWaypoint

/-- The waypoint-type heuristic of source lines 91-96, for index `i` in a
list of length `n`. -/
def classify (n i : Nat) (name : String) : String :=
  if i = 0 ∨ i = n - 1 then "Airport"
  else if name.length = 5 ∧ pyIsAlpha name then "Intersection"
  else "User"

/-- One output waypoint node (source lines 89-106): id attribute, type,
world position, and the `<ICAOIdent>` only for `Airport`/`Intersection`
(`name[:4]` for `Airport`, the full name for `Intersection`). -/
def mkATC (n i : Nat) (w : Waypoint) : ATCWaypoint :=
  { id := w.name
    wpType := classify n i w.name
    worldPosition := lla w.lat w.lon w.alt
    icaoIdent :=
      if classify n i w.name = "Airport" then some ⟨w.name.data.take 4⟩
      else if classify n i w.name = "Intersection" then some w.name
      else none }

/-- The `for idx, ... in enumerate(wpts)` loop, with `i` the index of the
head of `ws` in the full list of length `n`. -/
def buildATCs (n : Nat) : Nat → List Waypoint → List ATCWaypoint
  | _, [] => []
  | i, w :: ws => mkATC n i w :: buildATCs n (i + 1) ws

/-- The last waypoint, `wpts[-1]`, of a nonempty list. -/
def lastWp (w0 : Waypoint) (rest : List Waypoint) : Waypoint :=
  (w0 :: rest).getLast (List.cons_ne_nil w0 rest)

/-- Source line 60: `(m.group(1).upper(), m.group(2).upper()) if m else
(wpts[0][0], wpts[-1][0])`. -/
def routeIDs (title : String) (w0 : Waypoint) (rest : List Waypoint) : String × String :=
  match matchEndpoints title with
  | some (g1, g2) => (pyUpper g1, pyUpper g2)
  | none => (w0.name, (lastWp w0 rest).name)

/-- `build_pln_xml` on a nonempty waypoint list `w0 :: rest`
(source lines 56-108). -/
def buildNE (title : String) (w0 : Waypoint) (rest : List Waypoint) : FlightPlanDoc :=
  { title := title
    fpType := "IFR"
    routeType := "Direct"
    cruisingAlt := "00000"
    departureID := (routeIDs title w0 rest).1
    departureLLA := lla w0.lat w0.lon w0.alt
    destinationID := (routeIDs title w0 rest).2
    destinationLLA := lla (lastWp w0 rest).lat (lastWp w0 rest).lon (lastWp w0 rest).alt
    descr := title ++ " Created by KML2MSFS"
    departureName := (routeIDs title w0 rest).1
    destinationName := (routeIDs title w0 rest).2
    appVersionMajor := "11"
    appVersionBuild := "282174"
    waypoints := buildATCs (rest.length + 1) 0 (w0 :: rest) }

/-- `build_pln_xml`: on an empty list the Python indexing `wpts[0]` raises,
modelled as `none`. -/
def build_pln_xml (title : String) (wpts : List Waypoint) : Option FlightPlanDoc :=
  match wpts with
  | [] => none
  | w0 :: rest => some (buildNE title w0 rest)

/-- A `<Placemark>`: an optional `<name>` and an optional `<Point>` whose
optional `<coordinates>` text is modelled by its comma-separated numeric
fields, already read as (model) floats. -/
structure Placemark where
  name : Option String
  point : Option (Option (List ℚ))

/-- The parsed input document: optional document-level `<name>`, and the
placemarks in document order. -/
structure KmlDoc where
  name : Option String
  placemarks : List Placemark

/-- The fatal conditions of `parse_kml`: an unhandled `AttributeError` on a
missing `<coordinates>` or `<name>`, a `ValueError` unpacking fewer than
three coordinate fields, and the explicit `ValueError` on zero waypoints. -/
inductive ParseErr where
  | missingCoordinates : ParseErr
  | missingName : ParseErr
  | badCoordinates : ParseErr
  | noWaypoints : ParseErr
deriving DecidableEq

/-- The placemark loop of source lines 42-49: skip placemarks without a
`<Point>`; on a point, read the first three coordinate fields (fatal if
missing or fewer than three, before the name is touched) and the stripped
name (fatal if missing). -/
def parsePlacemarks : List Placemark → Except ParseErr (List Waypoint)
  | [] => .ok []
  | pm :: rest =>
    match pm.point with
    | none => parsePlacemarks rest
    | some none => .error .missingCoordinates
    | some (some coords) =>
      match coords.take 3, pm.name with
      | [lon, lat, alt], some nm =>
        (parsePlacemarks rest).map
          (fun ws => { name := pyStrip nm, lat := lat, lon := lon, alt := alt } :: ws)
      | [_, _, _], none => .error .missingName
      | _, _ => .error .badCoordinates

/-- The title of source lines 38-39: the stripped document `<name>` if
present, otherwise `os.path.basename(kml_path)`. -/
def kmlTitle (docName : Option String) (path : String) : String :=
  match docName with
  | some t => pyStrip t
  | none => pyBasename path

/-- `parse_kml` (source lines 33-54) on an already well-formed tree. -/
def parse_kml (doc : KmlDoc) (path : String) : Except ParseErr (String × List Waypoint) :=
  match parsePlacemarks doc.placemarks with
  | .error e => .error e
  | .ok ws => if ws.isEmpty then .error .noWaypoints else .ok (kmlTitle doc.name path, ws)

/-- The `main` pipeline after the file-existence check (source lines
123-127): parse, build, and only then write; a fatal condition yields no
output document. -/
def runMain (doc : KmlDoc) (path : String) : Option FlightPlanDoc :=
  match parse_kml doc path with
  | .error _ => none
  | .ok (t, ws) => build_pln_xml t ws

/-- Concrete waypoints used in the examples of the spec. -/
def wpAlpha : Waypoint := ⟨"ALPHA", 1, 2, 3⟩

def wpBravo : Waypoint := ⟨"BRAVO", 4, 5, 6⟩

def wpRw27l : Waypoint := ⟨"RW27L", 4, 5, 6⟩

def wpZulu : Waypoint := ⟨"ZULU5", 7, 8, 9⟩

def wpWpt1 : Waypoint := ⟨"WPT1", 0, 0, 0⟩

end Kml2Msfs


namespace Kml2Msfs

theorem digitCharsTo_eq (n : Nat) (acc : List Char) :
    digitCharsTo n acc = natChars n ++ acc := by
  induction n using Nat.strong_induction_on generalizing acc with
  | _ n ih =>
    by_cases h : n < 10
    · conv_lhs => rw [digitCharsTo]
      conv_rhs => rw [natChars, digitCharsTo]
      simp [h]
    · conv_lhs => rw [digitCharsTo]
      conv_rhs => rw [natChars, digitCharsTo]
      simp only [if_neg h]
      rw [ih (n / 10) (by omega) (Nat.digitChar (n % 10) :: acc),
        ih (n / 10) (by omega) [Nat.digitChar (n % 10)], List.append_assoc]
      rfl

theorem natChars_eq (n : Nat) :
    natChars n = if n < 10 then [Nat.digitChar n]
      else natChars (n / 10) ++ [Nat.digitChar (n % 10)] := by
  rw [natChars, digitCharsTo]
  by_cases h : n < 10
  · simp [h]
  · simp only [if_neg h, digitCharsTo_eq]

theorem natChars_ne_nil (n : Nat) : natChars n ≠ [] := by
  rw [natChars_eq]
  by_cases h : n < 10 <;> simp [h]

theorem digitChar_isDigit : ∀ d : Nat, d < 10 → (Nat.digitChar d).isDigit = true := by
  decide

theorem digitChar_val : ∀ d : Nat, d < 10 → (Nat.digitChar d).toNat - 48 = d := by
  decide

theorem digitChar_ne_zero : ∀ d : Nat, d < 10 → (d ≠ 0 → Nat.digitChar d ≠ '0') := by
  decide

theorem natChars_all_digit (n : Nat) : ∀ c ∈ natChars n, c.isDigit = true := by
  induction n using Nat.strong_induction_on with
  | _ n ih =>
    rw [natChars_eq]
    by_cases h : n < 10
    · simpa [h] using digitChar_isDigit n h
    · have hd : n / 10 < n := by omega
      simp only [if_neg h, List.mem_append, List.mem_singleton]
      rintro c (hc | rfl)
      · exact ih _ hd c hc
      · exact digitChar_isDigit _ (Nat.mod_lt n (by omega))

theorem natChars_length_le (k : Nat) : ∀ n : Nat, 1 ≤ k → n < 10 ^ k →
    (natChars n).length ≤ k := by
  induction k with
  | zero => omega
  | succ k ihk =>
    intro n _ hn
    rw [natChars_eq]
    by_cases h : n < 10
    · rw [if_pos h]
      simp
    · have hk : 1 ≤ k := by
        by_contra hk0
        have hkz : k = 0 := by omega
        subst hkz
        norm_num at hn
        omega
      have hd : n / 10 < 10 ^ k := by
        have : n < 10 * 10 ^ k := by
          calc n < 10 ^ (k + 1) := hn
          _ = 10 * 10 ^ k := by ring
        omega
      simp only [if_neg h, List.length_append, List.length_singleton]
      have := ihk (n / 10) hk hd
      omega

theorem natChars_head_ne_zero (n : Nat) (hn : n ≠ 0) :
    (natChars n).head? ≠ some '0' := by
  induction n using Nat.strong_induction_on with
  | _ n ih =>
    rw [natChars_eq]
    by_cases h : n < 10
    · simpa [h] using digitChar_ne_zero n h hn
    · have hd : n / 10 < n := by omega
      have hz : n / 10 ≠ 0 := by omega
      simp only [if_neg h]
      rw [List.head?_append_of_ne_nil _ (natChars_ne_nil _)]
      exact ih _ hd hz

theorem natOfChars_foldl (cs : List Char) : ∀ a : Nat,
    cs.foldl (fun a c => a * 10 + (c.toNat - 48)) a
      = a * 10 ^ cs.length + natOfChars cs := by
  induction cs with
  | nil => intro a; simp [natOfChars]
  | cons c cs ih =>
    intro a
    simp only [List.foldl_cons, List.length_cons, natOfChars]
    rw [ih (a * 10 + (c.toNat - 48)), ih (0 * 10 + (c.toNat - 48))]
    ring

theorem natOfChars_append (xs ys : List Char) :
    natOfChars (xs ++ ys) = natOfChars xs * 10 ^ ys.length + natOfChars ys := by
  rw [natOfChars, List.foldl_append, ← natOfChars, natOfChars_foldl]

theorem natOfChars_natChars (n : Nat) : natOfChars (natChars n) = n := by
  induction n using Nat.strong_induction_on with
  | _ n ih =>
    rw [natChars_eq]
    by_cases h : n < 10
    · simp [h, natOfChars, digitChar_val n h]
    · have hd : n / 10 < n := by omega
      rw [if_neg h, natOfChars_append, ih _ hd]
      have : natOfChars [Nat.digitChar (n % 10)] = n % 10 := by
        simp [natOfChars, digitChar_val _ (Nat.mod_lt n (by omega))]
      rw [this]
      simp only [List.length_singleton, pow_one]
      omega

theorem natOfChars_replicate_zero (k : Nat) :
    natOfChars (List.replicate k '0') = 0 := by
  induction k with
  | zero => rfl
  | succ k ih =>
    have : natOfChars (List.replicate (k + 1) '0')
        = natOfChars (List.replicate k '0' ++ ['0']) := by
      rw [← List.replicate_succ' k '0']
    rw [this, natOfChars_append, ih]
    rfl

theorem natOfChars_padZeros (w : Nat) (cs : List Char) :
    natOfChars (padZeros w cs) = natOfChars cs := by
  rw [padZeros, natOfChars_append]
  have : natOfChars (List.replicate (w - cs.length) '0') = 0 :=
    natOfChars_replicate_zero _
  rw [this]
  ring

theorem padZeros_length (w : Nat) (cs : List Char) :
    (padZeros w cs).length = max w cs.length := by
  simp [padZeros]
  omega

theorem padZeros_all_digit (w : Nat) (cs : List Char)
    (h : ∀ c ∈ cs, c.isDigit = true) : ∀ c ∈ padZeros w cs, c.isDigit = true := by
  intro c hc
  rcases List.mem_append.1 hc with hc | hc
  · rcases List.eq_of_mem_replicate hc with rfl; decide
  · exact h c hc

theorem pyRound_cases (q : ℚ) : pyRound q = ⌊q⌋ ∨ pyRound q = ⌊q⌋ + 1 := by
  rw [pyRound]
  split_ifs <;> simp

theorem abs_pyRound_sub_le (q : ℚ) : |(pyRound q : ℚ) - q| ≤ 1/2 := by
  have h0 : (⌊q⌋ : ℚ) ≤ q := Int.floor_le q
  have h1 : q < (⌊q⌋ : ℚ) + 1 := Int.lt_floor_add_one q
  rw [pyRound]
  split_ifs with ha hb hc <;> rw [abs_le] <;> push_cast <;> constructor <;> linarith

theorem pyRound_le (q : ℚ) : pyRound q ≤ ⌊q⌋ + 1 := by
  rcases pyRound_cases q with h | h <;> omega

theorem pyRound_nonneg (q : ℚ) (h : 0 ≤ q) : 0 ≤ pyRound q := by
  have : (0 : ℤ) ≤ ⌊q⌋ := Int.floor_nonneg.2 h
  rcases pyRound_cases q with h | h <;> omega

theorem dmsDeg_nonneg (v : ℚ) : 0 ≤ dmsDeg v := Int.floor_nonneg.2 (abs_nonneg v)

theorem dmsMinFull_nonneg (v : ℚ) : 0 ≤ dmsMinFull v := by
  have : (⌊|v|⌋ : ℚ) ≤ |v| := Int.floor_le _
  rw [dmsMinFull, dmsDeg]
  nlinarith

theorem dmsMinFull_lt (v : ℚ) : dmsMinFull v < 60 := by
  have : |v| < (⌊|v|⌋ : ℚ) + 1 := Int.lt_floor_add_one _
  rw [dmsMinFull, dmsDeg]
  nlinarith

theorem dmsMin_nonneg (v : ℚ) : 0 ≤ dmsMin v :=
  Int.floor_nonneg.2 (dmsMinFull_nonneg v)

theorem dmsMin_lt (v : ℚ) : dmsMin v < 60 := by
  rw [dmsMin, Int.floor_lt]
  exact_mod_cast dmsMinFull_lt v

theorem dmsSec_nonneg (v : ℚ) : 0 ≤ dmsSec v := by
  have : (⌊dmsMinFull v⌋ : ℚ) ≤ dmsMinFull v := Int.floor_le _
  rw [dmsSec, dmsMin]
  nlinarith

theorem dmsSec_lt (v : ℚ) : dmsSec v < 60 := by
  have : dmsMinFull v < (⌊dmsMinFull v⌋ : ℚ) + 1 := Int.lt_floor_add_one _
  rw [dmsSec, dmsMin]
  nlinarith

theorem dms_reconstruct (v : ℚ) :
    (dmsDeg v : ℚ) + (dmsMin v : ℚ) / 60 + dmsSec v / 3600 = |v| := by
  have hs : dmsSec v = ((|v| - (dmsDeg v : ℚ)) * 60 - (dmsMin v : ℚ)) * 60 := by
    rw [dmsSec, dmsMinFull]
  rw [hs]
  ring

theorem padZeros_split (w k : Nat) (xs ts : List Char) (ht : ts.length = k) :
    padZeros (w + k) (xs ++ ts) = padZeros w xs ++ ts := by
  rw [padZeros, padZeros, List.length_append, ht,
    show w + k - (xs.length + k) = w - xs.length by omega, List.append_assoc]

theorem sec_hundredths_le (s : ℚ) (_h1 : 0 ≤ s) (h2 : s < 60) :
    (pyRound (s * 100)).toNat ≤ 6000 := by
  have hf : ⌊s * 100⌋ < 6000 := Int.floor_lt.2 (by push_cast; nlinarith)
  have := pyRound_le (s * 100)
  omega

theorem fmt05_2_eq (s : ℚ) :
    fmt05_2 s = padZeros 2 (natChars ((pyRound (s * 100)).toNat / 100)) ++
      '.' :: padZeros 2 (natChars ((pyRound (s * 100)).toNat % 100)) := by
  rw [fmt05_2]
  have hfr : (pyRound (s * 100)).toNat % 100 < 100 := Nat.mod_lt _ (by norm_num)
  have hlen : (natChars ((pyRound (s * 100)).toNat % 100)).length ≤ 2 :=
    natChars_length_le 2 _ (by norm_num) (by norm_num; omega)
  have ht : ('.' :: padZeros 2 (natChars ((pyRound (s * 100)).toNat % 100))).length = 3 := by
    simp only [List.length_cons, padZeros_length]
    omega
  exact padZeros_split 2 3 _ _ ht

theorem padZeros_two_digits (cs : List Char) (h1 : cs ≠ []) (h2 : cs.length ≤ 2)
    (hd : ∀ c ∈ cs, c.isDigit = true) :
    ∃ a b, padZeros 2 cs = [a, b] ∧ a.isDigit = true ∧ b.isDigit = true := by
  rcases cs with _ | ⟨a, _ | ⟨b, _ | ⟨c, t⟩⟩⟩
  · exact absurd rfl h1
  · exact ⟨'0', a, by simp [padZeros], by decide, hd a (by simp)⟩
  · exact ⟨a, b, by simp [padZeros], hd a (by simp), hd b (by simp)⟩
  · simp at h2

theorem fmt05_2_shape (s : ℚ) (h1 : 0 ≤ s) (h2 : s < 60) :
    ∃ c0 c1 c3 c4, fmt05_2 s = [c0, c1, '.', c3, c4] ∧
      c0.isDigit = true ∧ c1.isDigit = true ∧ c3.isDigit = true ∧ c4.isDigit = true ∧
      natOfChars [c0, c1] = (pyRound (s * 100)).toNat / 100 ∧
      natOfChars [c3, c4] = (pyRound (s * 100)).toNat % 100 := by
  have hle := sec_hundredths_le s h1 h2
  have hip : (pyRound (s * 100)).toNat / 100 < 100 := by omega
  have hfr : (pyRound (s * 100)).toNat % 100 < 100 := Nat.mod_lt _ (by norm_num)
  obtain ⟨a, b, hab, ha, hb⟩ :=
    padZeros_two_digits (natChars ((pyRound (s * 100)).toNat / 100)) (natChars_ne_nil _)
      (natChars_length_le 2 _ (by norm_num) (by norm_num; omega)) (natChars_all_digit _)
  obtain ⟨c, d, hcd, hc, hd⟩ :=
    padZeros_two_digits (natChars ((pyRound (s * 100)).toNat % 100)) (natChars_ne_nil _)
      (natChars_length_le 2 _ (by norm_num) (by norm_num; omega)) (natChars_all_digit _)
  refine ⟨a, b, c, d, ?_, ha, hb, hc, hd, ?_, ?_⟩
  · rw [fmt05_2_eq, hab, hcd]
    rfl
  · rw [← hab, natOfChars_padZeros, natOfChars_natChars]
  · rw [← hcd, natOfChars_padZeros, natOfChars_natChars]

theorem buildATCs_get? (n : Nat) (ws : List Waypoint) : ∀ k i : Nat,
    (buildATCs n k ws).get? i = (ws.get? i).map (fun w => mkATC n (k + i) w) := by
  induction ws with
  | nil => intro k i; simp [buildATCs]
  | cons w ws ih =>
    intro k i
    cases i with
    | zero => simp [buildATCs]
    | succ i =>
      simp only [buildATCs, List.get?_cons_succ, ih (k + 1) i]
      rw [show k + 1 + i = k + (i + 1) by omega]

theorem buildATCs_length (n : Nat) (ws : List Waypoint) : ∀ k : Nat,
    (buildATCs n k ws).length = ws.length := by
  induction ws with
  | nil => intro k; rfl
  | cons w ws ih => intro k; simp [buildATCs, ih (k + 1)]

theorem buildNE_waypoints_get? (title : String) (w0 : Waypoint) (rest : List Waypoint)
    (i : Nat) :
    (buildNE title w0 rest).waypoints.get? i
      = ((w0 :: rest).get? i).map (fun w => mkATC (rest.length + 1) i w) := by
  rw [buildNE]
  simp only
  rw [buildATCs_get? (rest.length + 1) (w0 :: rest) 0 i]
  simp

theorem parsePlacemarks_all_skip (pms : List Placemark)
    (h : ∀ pm ∈ pms, pm.point = none) : parsePlacemarks pms = .ok [] := by
  induction pms with
  | nil => rfl
  | cons pm rest ih =>
    have hp : pm.point = none := h pm (by simp)
    rw [parsePlacemarks, hp]
    exact ih (fun q hq => h q (by simp [hq]))

end Kml2Msfs

namespace Kml2Msfs

/-- C1 (amended): for every altitude whose rounded feet value
`ft = round(m · 3.28084)` satisfies `0 ≤ ft < 1000000`, the formatter returns
`'+'`, a six-digit zero-padded magnitude whose decimal value is `ft`, and the
fixed `".00"` suffix; the resulting string is exactly 10 characters matching
`+DDDDDD.DD`. -/
theorem alt_str_format (m : ℚ) (h0 : 0 ≤ pyRound (m * mPerFt))
    (h6 : pyRound (m * mPerFt) < 1000000) :
    ∃ ds : List Char,
      alt_m_to_ft_str m = '+' :: (ds ++ ['.', '0', '0']) ∧
      ds.length = 6 ∧ (∀ c ∈ ds, c.isDigit = true) ∧
      (natOfChars ds : ℤ) = pyRound (m * mPerFt) ∧
      (alt_m_to_ft_str m).length = 10 := by
  have hnn : ¬ pyRound (m * mPerFt) < 0 := by omega
  have hna : (pyRound (m * mPerFt)).natAbs = (pyRound (m * mPerFt)).toNat := by omega
  have he : alt_m_to_ft_str m
      = '+' :: (padZeros 6 (natChars (pyRound (m * mPerFt)).toNat) ++ ['.', '0', '0']) := by
    rw [alt_m_to_ft_str, int06, if_neg hnn, hna]
  have hlen : (natChars (pyRound (m * mPerFt)).toNat).length ≤ 6 :=
    natChars_length_le 6 _ (by norm_num) (by norm_num; omega)
  have hplen : (padZeros 6 (natChars (pyRound (m * mPerFt)).toNat)).length = 6 := by
    rw [padZeros_length]; omega
  refine ⟨_, he, hplen, padZeros_all_digit _ _ (natChars_all_digit _), ?_, ?_⟩
  · rw [natOfChars_padZeros, natOfChars_natChars, Int.toNat_of_nonneg h0]
  · rw [he]
    simp [hplen]

/-- C1 counterexample: at `m = 0` the formatter returns `"+000000.00"`,
which has 10 characters, not the 11 the claim states. -/
theorem alt_str_len_cx :
    alt_m_to_ft_str 0 = '+' :: "000000.00".data ∧ (alt_m_to_ft_str 0).length ≠ 11 := by
  have h : pyRound (0 * mPerFt) = 0 := by norm_num [pyRound, mPerFt]
  have he : alt_m_to_ft_str 0 = '+' :: "000000.00".data := by
    simp only [alt_m_to_ft_str, h]
    simp [int06, natChars, digitCharsTo, padZeros]
    decide
  exact ⟨he, by rw [he]; decide⟩

/-- C1 witness: `m = 8.53` rounds to 28 ft, inside the representable range,
and the output has exactly 10 characters. -/
theorem alt_str_format_witness :
    (0 ≤ pyRound ((8.53 : ℚ) * mPerFt) ∧ pyRound ((8.53 : ℚ) * mPerFt) < 1000000) ∧
    (alt_m_to_ft_str 8.53).length = 10 := by
  have h0 : 0 ≤ pyRound ((8.53 : ℚ) * mPerFt) := by norm_num [pyRound, mPerFt]
  have h6 : pyRound ((8.53 : ℚ) * mPerFt) < 1000000 := by norm_num [pyRound, mPerFt]
  obtain ⟨ds, he, hl, hd, hv, hlen⟩ := alt_str_format 8.53 h0 h6
  exact ⟨⟨h0, h6⟩, hlen⟩

/-- C4: the DMS formatter emits the hemisphere letter by axis and sign, the
integer part of `|v|` as degrees, the integer part of the scaled remainder as
minutes, and the remaining fraction times 60 as seconds with exactly two
decimal places zero-padded to width 5; degrees and minutes carry no leading
zero. -/
theorem dms_format (v : ℚ) (is_lat : Bool) :
    dec_to_dms v is_lat =
      dmsHem v is_lat ::
        (natChars (dmsDeg v).toNat ++ '°' :: ' ' ::
          (natChars (dmsMin v).toNat ++ '\'' :: ' ' ::
            (fmt05_2 (dmsSec v) ++ ['\"']))) ∧
    dmsHem v is_lat
      = (if is_lat then (if 0 ≤ v then 'N' else 'S') else (if 0 ≤ v then 'E' else 'W')) ∧
    dmsDeg v = ⌊|v|⌋ ∧
    dmsMin v = ⌊(|v| - (⌊|v|⌋ : ℚ)) * 60⌋ ∧
    dmsSec v = ((|v| - (⌊|v|⌋ : ℚ)) * 60 - (⌊(|v| - (⌊|v|⌋ : ℚ)) * 60⌋ : ℚ)) * 60 ∧
    (fmt05_2 (dmsSec v)).length = 5 ∧
    (∃ c0 c1 c3 c4, fmt05_2 (dmsSec v) = [c0, c1, '.', c3, c4] ∧
      c0.isDigit = true ∧ c1.isDigit = true ∧ c3.isDigit = true ∧ c4.isDigit = true) ∧
    ((dmsDeg v).toNat ≠ 0 → (natChars (dmsDeg v).toNat).head? ≠ some '0') ∧
    ((dmsMin v).toNat ≠ 0 → (natChars (dmsMin v).toNat).head? ≠ some '0') := by
  obtain ⟨c0, c1, c3, c4, hsh, h0, h1, h3, h4, _, _⟩ :=
    fmt05_2_shape (dmsSec v) (dmsSec_nonneg v) (dmsSec_lt v)
  refine ⟨rfl, rfl, rfl, rfl, rfl, ?_, ⟨c0, c1, c3, c4, hsh, h0, h1, h3, h4⟩,
    natChars_head_ne_zero _, natChars_head_ne_zero _⟩
  rw [hsh]
  rfl

/-- C5: the hemisphere letter of the DMS string is `N`/`E` exactly on
nonnegative values, and recombining the printed degrees, minutes and
(hundredth-rounded) seconds with the hemisphere sign reconstructs `v` to
within `1/360000` of a degree. -/
theorem dms_roundtrip (v : ℚ) (is_lat : Bool) :
    (dec_to_dms v is_lat).head? = some (dmsHem v is_lat) ∧
    ((dmsHem v is_lat = 'N' ∨ dmsHem v is_lat = 'E') ↔ 0 ≤ v) ∧
    (∃ c0 c1 c3 c4, fmt05_2 (dmsSec v) = [c0, c1, '.', c3, c4] ∧
      (natOfChars [c0, c1] : ℚ) + (natOfChars [c3, c4] : ℚ) / 100
        = (pyRound (dmsSec v * 100) : ℚ) / 100) ∧
    |(if 0 ≤ v then (1 : ℚ) else -1) *
        ((dmsDeg v : ℚ) + (dmsMin v : ℚ) / 60 +
          ((pyRound (dmsSec v * 100) : ℚ) / 100) / 3600) - v| ≤ 1/360000 := by
  refine ⟨rfl, ?_, ?_, ?_⟩
  · rw [dmsHem]
    by_cases h : 0 ≤ v
    · cases is_lat <;> simp [h]
    · cases is_lat <;> simp [h]
  · obtain ⟨c0, c1, c3, c4, hsh, _, _, _, _, hip, hfr⟩ :=
      fmt05_2_shape (dmsSec v) (dmsSec_nonneg v) (dmsSec_lt v)
    refine ⟨c0, c1, c3, c4, hsh, ?_⟩
    rw [hip, hfr]
    have hnn : 0 ≤ pyRound (dmsSec v * 100) :=
      pyRound_nonneg _ (by nlinarith [dmsSec_nonneg v])
    have hsplit : ((pyRound (dmsSec v * 100)).toNat / 100) * 100
        + (pyRound (dmsSec v * 100)).toNat % 100 = (pyRound (dmsSec v * 100)).toNat := by
      omega
    have hcast : ((pyRound (dmsSec v * 100)).toNat : ℚ) = (pyRound (dmsSec v * 100) : ℚ) := by
      exact_mod_cast Int.toNat_of_nonneg hnn
    have hq : (((pyRound (dmsSec v * 100)).toNat / 100 : ℕ) : ℚ) * 100
        + (((pyRound (dmsSec v * 100)).toNat % 100 : ℕ) : ℚ)
        = (((pyRound (dmsSec v * 100)).toNat : ℕ) : ℚ) := by
      exact_mod_cast hsplit
    rw [← hcast]
    field_simp
    linarith [hq]
  · have h1 := abs_pyRound_sub_le (dmsSec v * 100)
    have h2 : |((pyRound (dmsSec v * 100) : ℚ) / 100) - dmsSec v| ≤ 1/200 := by
      have he : ((pyRound (dmsSec v * 100) : ℚ) / 100) - dmsSec v
          = ((pyRound (dmsSec v * 100) : ℚ) - dmsSec v * 100) / 100 := by ring
      rw [he, abs_div, abs_of_pos (by norm_num : (0 : ℚ) < 100)]
      linarith
    have hrec := dms_reconstruct v
    have h4 : ((dmsDeg v : ℚ) + (dmsMin v : ℚ) / 60 +
          ((pyRound (dmsSec v * 100) : ℚ) / 100) / 3600) - |v|
        = (((pyRound (dmsSec v * 100) : ℚ) / 100) - dmsSec v) / 3600 := by
      rw [← hrec]
      ring
    have h5 : abs (((dmsDeg v : ℚ) + (dmsMin v : ℚ) / 60 +
          ((pyRound (dmsSec v * 100) : ℚ) / 100) / 3600) - |v|) ≤ 1/720000 := by
      rw [h4, abs_div, abs_of_pos (by norm_num : (0 : ℚ) < 3600)]
      linarith
    split_ifs with h
    · rw [abs_of_nonneg h] at h5
      rw [one_mul]
      linarith [h5]
    · rw [abs_of_neg (lt_of_not_ge h)] at h5
      have he2 : (-1 : ℚ) *
            ((dmsDeg v : ℚ) + (dmsMin v : ℚ) / 60 +
              ((pyRound (dmsSec v * 100) : ℚ) / 100) / 3600) - v
          = -(((dmsDeg v : ℚ) + (dmsMin v : ℚ) / 60 +
              ((pyRound (dmsSec v * 100) : ℚ) / 100) / 3600) - -v) := by ring
      rw [he2, abs_neg]
      linarith [h5]

theorem pyIsAlpha_iff (s : String) :
    pyIsAlpha s = true ↔ (s.data ≠ [] ∧ ∀ c ∈ s.data, c.isAlpha = true) := by
  rw [pyIsAlpha]
  simp [List.all_eq_true]

theorem classify_cases (n i : Nat) (nm : String) :
    classify n i nm = "Airport" ∨ classify n i nm = "Intersection" ∨
      classify n i nm = "User" := by
  rw [classify]
  split_ifs <;> simp

/-- C2 (amended): the endpoint pattern is four word characters (letters,
digits or underscore), one or more whitespace characters, a case-insensitive
`to`, one or more whitespace characters, and four word characters, anchored
at the start of the title; on a match both captured codes are upper-cased and
used as departure/destination identifiers, otherwise the first and last
waypoint names are used verbatim.  `"KLAX to KJFK Flight"` yields
`KLAX`/`KJFK`; `"Evening Cruise"` with names `ALPHA, …, ZULU5` yields
`ALPHA`/`ZULU5`. -/
theorem route_endpoints (title : String) (w0 : Waypoint) (rest : List Waypoint) :
    (∀ g1 g2, matchEndpoints title = some (g1, g2) →
      (buildNE title w0 rest).departureID = pyUpper g1 ∧
      (buildNE title w0 rest).destinationID = pyUpper g2) ∧
    (matchEndpoints title = none →
      (buildNE title w0 rest).departureID = w0.name ∧
      (buildNE title w0 rest).destinationID = (lastWp w0 rest).name) ∧
    matchEndpoints "KLAX to KJFK Flight" = some ("KLAX", "KJFK") ∧
    (buildNE "KLAX to KJFK Flight" w0 rest).departureID = "KLAX" ∧
    (buildNE "KLAX to KJFK Flight" w0 rest).destinationID = "KJFK" ∧
    matchEndpoints "Evening Cruise" = none ∧
    (buildNE "Evening Cruise" wpAlpha [wpBravo, wpZulu]).departureID = "ALPHA" ∧
    (buildNE "Evening Cruise" wpAlpha [wpBravo, wpZulu]).destinationID = "ZULU5" := by
  have h1 : matchEndpoints "KLAX to KJFK Flight" = some ("KLAX", "KJFK") := by decide
  have h2 : matchEndpoints "Evening Cruise" = none := by decide
  refine ⟨?_, ?_, h1, ?_, ?_, h2, by decide, by decide⟩
  · intro g1 g2 hm
    exact ⟨by simp [buildNE, routeIDs, hm], by simp [buildNE, routeIDs, hm]⟩
  · intro hm
    exact ⟨by simp [buildNE, routeIDs, hm], by simp [buildNE, routeIDs, hm]⟩
  · simp [buildNE, routeIDs, h1]
    decide
  · simp [buildNE, routeIDs, h1]
    decide

/-- C2 counterexample: at title `"AB_C to KJFK"` the regex `\w` matches the
underscore, so the code infers `AB_C`/`KJFK`, while four ALPHANUMERIC
characters (as the claim words the pattern) would not match, which would give
the waypoint-name fallback `WPT1`. -/
theorem route_endpoints_cx :
    specAlnumMatch "AB_C to KJFK".data = none ∧
    matchEndpoints "AB_C to KJFK" = some ("AB_C", "KJFK") ∧
    (buildNE "AB_C to KJFK" wpWpt1 []).departureID = "AB_C" ∧
    ("AB_C" : String) ≠ "WPT1" := by
  refine ⟨by decide, by decide, by decide, by decide⟩

/-- C2 witness: the two spec examples, obtained from the endpoint theorem at
concrete titles and waypoints. -/
theorem route_endpoints_witness :
    (buildNE "KLAX to KJFK Flight" wpWpt1 []).departureID = "KLAX" ∧
    (buildNE "Evening Cruise" wpAlpha [wpBravo, wpZulu]).destinationID = "ZULU5" := by
  have h := (route_endpoints "KLAX to KJFK Flight" wpWpt1 []).1 "KLAX" "KJFK" (by decide)
  have h2 := (route_endpoints "Evening Cruise" wpAlpha [wpBravo, wpZulu]).2.1 (by decide)
  exact ⟨h.1.trans (by decide), h2.2.trans (by decide)⟩

/-- C3: the waypoint type is `Airport` at the first or last index regardless
of name, else `Intersection` for a 5-character all-alphabetic name, else
`User`. -/
theorem waypoint_classification (title : String) (w0 : Waypoint) (rest : List Waypoint)
    (i : Nat) (w : Waypoint) (atc : ATCWaypoint)
    (hw : (w0 :: rest).get? i = some w)
    (ha : (buildNE title w0 rest).waypoints.get? i = some atc) :
    atc.wpType = if i = 0 ∨ i = (w0 :: rest).length - 1 then "Airport"
      else if w.name.length = 5 ∧ (w.name.data ≠ [] ∧ ∀ c ∈ w.name.data, c.isAlpha = true)
        then "Intersection" else "User" := by
  rw [buildNE_waypoints_get?, hw] at ha
  simp only [Option.map_some'] at ha
  obtain rfl := (Option.some.inj ha).symm
  show classify (rest.length + 1) i w.name = _
  rw [classify]
  simp only [List.length_cons, Nat.add_sub_cancel]
  exact if_congr Iff.rfl rfl (if_congr (and_congr Iff.rfl (pyIsAlpha_iff w.name)) rfl rfl)

/-- C3 witness: in a 3-waypoint path the middle waypoint `BRAVO` (5 letters)
classifies as `Intersection`. -/
theorem waypoint_classification_witness :
    ((buildNE "Evening Cruise" wpAlpha [wpBravo, wpZulu]).waypoints.get? 1
      = some (mkATC 3 1 wpBravo)) ∧
    (mkATC 3 1 wpBravo).wpType = "Intersection" := by
  have h := waypoint_classification "Evening Cruise" wpAlpha [wpBravo, wpZulu] 1 wpBravo
    (mkATC 3 1 wpBravo) rfl rfl
  refine ⟨rfl, ?_⟩
  rw [h]
  decide

/-- C7: the `<ICAO>` sub-record is emitted exactly for `Airport` and
`Intersection` waypoints; the identifier is the first four characters of the
name for `Airport` and the full name for `Intersection`. -/
theorem icao_subrecord (title : String) (w0 : Waypoint) (rest : List Waypoint)
    (i : Nat) (atc : ATCWaypoint)
    (ha : (buildNE title w0 rest).waypoints.get? i = some atc) :
    (atc.icaoIdent ≠ none ↔ (atc.wpType = "Airport" ∨ atc.wpType = "Intersection")) ∧
    (atc.wpType = "Airport" → atc.icaoIdent = some ⟨atc.id.data.take 4⟩) ∧
    (atc.wpType = "Intersection" → atc.icaoIdent = some atc.id) := by
  rw [buildNE_waypoints_get?] at ha
  cases hw : (w0 :: rest).get? i with
  | none => rw [hw] at ha; simp at ha
  | some w =>
    rw [hw] at ha
    simp only [Option.map_some'] at ha
    obtain rfl := (Option.some.inj ha).symm
    rcases classify_cases (rest.length + 1) i w.name with hc | hc | hc <;>
      simp [mkATC, hc]

/-- C7 witness: the middle `Intersection` waypoint `BRAVO` carries its full
name as the identifier. -/
theorem icao_subrecord_witness :
    ((buildNE "Evening Cruise" wpAlpha [wpBravo, wpZulu]).waypoints.get? 1
      = some (mkATC 3 1 wpBravo)) ∧
    (mkATC 3 1 wpBravo).icaoIdent = some "BRAVO" := by
  have h := icao_subrecord "Evening Cruise" wpAlpha [wpBravo, wpZulu] 1
    (mkATC 3 1 wpBravo) rfl
  have ht : (mkATC 3 1 wpBravo).wpType = "Intersection" := by decide
  exact ⟨rfl, (h.2.2 ht).trans rfl⟩

/-- C9: a single-waypoint flight path (with a non-matching title) builds
successfully; the lone waypoint is an `Airport`, both endpoint identifiers
are its name, and the departure and destination coordinate triples are
identical. -/
theorem single_waypoint_build (title : String) (w : Waypoint)
    (h : matchEndpoints title = none) :
    build_pln_xml title [w] = some (buildNE title w []) ∧
    (buildNE title w []).departureID = w.name ∧
    (buildNE title w []).destinationID = w.name ∧
    (buildNE title w []).departureLLA = (buildNE title w []).destinationLLA ∧
    (buildNE title w []).waypoints = [mkATC 1 0 w] ∧
    (mkATC 1 0 w).wpType = "Airport" := by
  refine ⟨rfl, ?_, ?_, rfl, rfl, ?_⟩
  · simp [buildNE, routeIDs, h, lastWp]
  · simp [buildNE, routeIDs, h, lastWp]
  · simp [mkATC, classify]

/-- C9 witness: a single waypoint named `BRAVO` under the non-matching title
`"Evening Cruise"`. -/
theorem single_waypoint_build_witness :
    matchEndpoints "Evening Cruise" = none ∧
    (buildNE "Evening Cruise" wpBravo []).departureID = "BRAVO" ∧
    (buildNE "Evening Cruise" wpBravo []).departureLLA
      = (buildNE "Evening Cruise" wpBravo []).destinationLLA := by
  have h := single_waypoint_build "Evening Cruise" wpBravo (by decide)
  exact ⟨by decide, h.2.1.trans rfl, h.2.2.2.1⟩

/-- C10: the pattern is anchored at the start of the title: when it does not
match at offset 0 (even though it matches at some later offset), no endpoints
are inferred and the first and last waypoint names are used. -/
theorem match_anchored (title : String) (w0 : Waypoint) (rest : List Waypoint)
    (h0 : matchAt title.data 0 = false)
    (_hsome : ∃ i, 0 < i ∧ matchAt title.data i = true) :
    matchEndpoints title = none ∧
    (buildNE title w0 rest).departureID = w0.name ∧
    (buildNE title w0 rest).destinationID = (lastWp w0 rest).name := by
  have hm : matchEndpoints title = none := by
    rw [matchAt, List.drop_zero] at h0
    rw [matchEndpoints]
    rcases hmm : matchWord4To title.data with _ | p
    · rfl
    · rw [hmm] at h0
      simp at h0
  exact ⟨hm, by simp [buildNE, routeIDs, hm], by simp [buildNE, routeIDs, hm]⟩

/-- C10 witness: `"Flight KLAX to KJFK"` contains the phrase at offset 7 but
not at the start, so the waypoint names are used. -/
theorem match_anchored_witness :
    (matchAt "Flight KLAX to KJFK".data 0 = false ∧
      0 < 7 ∧ matchAt "Flight KLAX to KJFK".data 7 = true) ∧
    (buildNE "Flight KLAX to KJFK" wpAlpha [wpZulu]).departureID = "ALPHA" := by
  have h := match_anchored "Flight KLAX to KJFK" wpAlpha [wpZulu] (by decide)
    ⟨7, by decide, by decide⟩
  exact ⟨⟨by decide, by decide, by decide⟩, h.2.1.trans rfl⟩

/-- C6 counterexample: with the document name absent and input path
`"route.kml"`, the title is the base name WITH its extension, `"route.kml"`,
not `"route"` as the claim states: the source uses `os.path.basename` without
`os.path.splitext`. -/
theorem title_fallback_cx :
    parse_kml ⟨none, [⟨some "A", some (some [1, 2, 3])⟩]⟩ "route.kml"
      = .ok ("route.kml", [⟨"A", 2, 1, 3⟩]) ∧
    ("route.kml" : String) ≠ "route" := ⟨rfl, by decide⟩

/-- C6 (amended): when the document-level name is absent the title is the
input file's base name INCLUDING its extension; when present, its stripped
text is the title. -/
theorem title_fallback (docName : Option String) (pms : List Placemark)
    (path t : String) (ws : List Waypoint)
    (h : parse_kml ⟨docName, pms⟩ path = .ok (t, ws)) :
    (docName = none → t = pyBasename path) ∧
    (∀ s, docName = some s → t = pyStrip s) := by
  rw [parse_kml] at h
  rcases hp : parsePlacemarks pms with e | ws'
  · rw [hp] at h
    simp at h
  · rw [hp] at h
    by_cases he : ws'.isEmpty
    · simp [he] at h
    · simp only [he, if_false] at h
      have h1 : kmlTitle docName path = t :=
        congrArg Prod.fst (Except.ok.inj h)
      constructor
      · rintro rfl
        exact h1.symm
      · rintro s rfl
        exact h1.symm

/-- C6 witness: a path with a directory and a `.kml` extension, document name
absent. -/
theorem title_fallback_witness :
    (parse_kml ⟨none, [⟨some "A", some (some [1, 2, 3])⟩]⟩ "dir/route.kml"
      = .ok ("route.kml", [⟨"A", 2, 1, 3⟩])) ∧
    ("route.kml" : String) = pyBasename "dir/route.kml" := by
  have h := title_fallback none [⟨some "A", some (some [1, 2, 3])⟩] "dir/route.kml"
    "route.kml" [⟨"A", 2, 1, 3⟩] rfl
  exact ⟨rfl, h.1 rfl⟩

/-- C8: a document with zero point-geometry placemarks fails with the
no-waypoints error, and every fatal parse condition yields no output
document, because the output is only produced after a successful parse and
build. -/
theorem no_output_on_error (doc : KmlDoc) (path : String) :
    ((∀ pm ∈ doc.placemarks, pm.point = none) →
      parse_kml doc path = .error .noWaypoints ∧ runMain doc path = none) ∧
    (∀ e, parse_kml doc path = .error e → runMain doc path = none) := by
  constructor
  · intro h
    have hp : parsePlacemarks doc.placemarks = .ok [] := parsePlacemarks_all_skip _ h
    have hpk : parse_kml doc path = .error .noWaypoints := by
      rw [parse_kml, hp]
      rfl
    exact ⟨hpk, by rw [runMain, hpk]⟩
  · intro e he
    rw [runMain, he]

/-- C8 witness: a document whose only placemark has a line geometry (no
point): parsing fails with the no-waypoints error and no output exists. -/
theorem no_output_on_error_witness :
    parse_kml ⟨none, [⟨some "L", none⟩]⟩ "a.kml" = .error .noWaypoints ∧
    runMain ⟨none, [⟨some "L", none⟩]⟩ "a.kml" = none :=
  (no_output_on_error ⟨none, [⟨some "L", none⟩]⟩ "a.kml").1
    (fun pm hm => by rw [List.mem_singleton] at hm; subst hm; rfl)

end Kml2Msfs
